import Mathlib

/-!
Verification development for the tdn-endpoint repository.

The repository's core logic lives in `myapp/views.py`: a mapping-template
parser / reconciliation / rewrite pipeline (`field_mapping_view`) and a
query gate (`protected_sparql`).  The Python code manipulates strings with
`re` and `str` operations; here those operations are shallowly embedded as
total functions on `List Char`.  All character classes use their ASCII
meaning (the documents handled by the application are ASCII), matching
Python's `\w` = `[A-Za-z0-9_]` and `\s` = `[ \t\n\r\x0b\x0c]` on such
input.
-/

namespace Tdn

/-- Python `\s` (ASCII): the whitespace characters recognised by `str.strip`
and the `\s` regex class on ASCII text. -/
def isPySpace (c : Char) : Bool :=
  c == ' ' || c == '\t' || c == '\n' || c == '\r' || c == Char.ofNat 11 || c == Char.ofNat 12

/-- Python `\w` (ASCII): letters, digits and underscore. -/
def isWordChar (c : Char) : Bool :=
  c.isAlphanum || c == '_'

/-- First character of a Python identifier: `[A-Za-z_]`. -/
def isIdentStart (c : Char) : Bool :=
  c.isAlpha || c == '_'

/-- A quote character, as in the Python literal `"'\""`. -/
def isQuote (c : Char) : Bool :=
  c == '"' || c == Char.ofNat 39

/-- Python `str.strip()` (no argument): drop whitespace from both ends. -/
def pyStrip (s : List Char) : List Char :=
  ((s.dropWhile isPySpace).reverse.dropWhile isPySpace).reverse

/-- Python `tok.strip("'\"")`: drop quote characters from both ends. -/
def stripQuotes (s : List Char) : List Char :=
  ((s.dropWhile isQuote).reverse.dropWhile isQuote).reverse

/-- The literal `pat` occurs in `s` starting at index `i`. -/
def litAt (pat s : List Char) (i : Nat) : Bool :=
  pat.isPrefixOf (s.drop i)

/-- Case-insensitive variant of `litAt`; `pat` is given lowercased. -/
def ciLitAt (pat s : List Char) (i : Nat) : Bool :=
  pat.isPrefixOf ((s.drop i).map Char.toLower)

/-- Whether the character at index `i` (if any) is a `\w` character. -/
def wordAt (s : List Char) (i : Nat) : Bool :=
  match s.get? i with
  | some c => isWordChar c
  | none => false

/-- The regex word boundary `\b` at position `i` of `s`: the two sides of
the position disagree about being word characters (positions outside the
string count as non-word). -/
def boundaryAt (s : List Char) (i : Nat) : Bool :=
  (if i = 0 then false else wordAt s (i - 1)) != wordAt s i

/-- Length of the maximal whitespace run of `s` starting at index `i`
(the text consumed by a greedy `\s*` / `\s+`). -/
def wsRunLen (s : List Char) (i : Nat) : Nat :=
  ((s.drop i).takeWhile isPySpace).length

/-- Index of the first occurrence of `pat` in `s` at index `start` or
later; models `str.find` / leftmost regex literal search. -/
def firstOccurFrom (pat s : List Char) (start : Nat) : Option Nat :=
  ((List.range (s.length + 1)).drop start).find? (fun i => litAt pat s i)

/-- Index of the last occurrence of `pat` in `s` at index `start` or later
(the end point a greedy `(.*)` backtracks to). -/
def lastOccurFrom (pat s : List Char) (start : Nat) : Option Nat :=
  (((List.range (s.length + 1)).drop start).filter (fun i => litAt pat s i)).getLast?

/-- The slice `s[a:b]` of a character list. -/
def sliceL (s : List Char) (a b : Nat) : List Char :=
  (s.drop a).take (b - a)

/-- `\b pat \b` occurs somewhere in `s`: a whole-word occurrence in the
sense of the regexes `rf"\b{re.escape(var)}\b"` (views.py line 322) and
`r'\b' + re.escape(col) + r'\b'` (views.py line 52). -/
def occursWholeWord (w s : List Char) : Bool :=
  (List.range (s.length + 1)).any fun i =>
    litAt w s i && boundaryAt s i && boundaryAt s (i + w.length)

/-- One step of Python `str.replace`: with `fuel ≥ s.length` this replaces
every non-overlapping occurrence of `pat` in `s` by `rep`, scanning left to
right, exactly as `s.replace(pat, rep)` does for a non-empty `pat`. -/
def pyReplaceGo (pat rep : List Char) : Nat → List Char → List Char
  | _, [] => []
  | 0, s => s
  | fuel + 1, c :: rest =>
    if pat.isPrefixOf (c :: rest) then
      rep ++ pyReplaceGo pat rep fuel (List.drop (pat.length - 1) rest)
    else
      c :: pyReplaceGo pat rep fuel rest

/-- Python `s.replace(pat, rep)` for non-empty `pat` (every call site in
the embedded code appends or prepends a delimiter character to a name, so
the pattern is never empty; for `pat = []` we return `s` unchanged). -/
def pyReplace (pat rep s : List Char) : List Char :=
  if pat = [] then s else pyReplaceGo pat rep s.length s

/-- `pat` occurs somewhere in `s` as a contiguous substring. -/
def occursIn (pat : List Char) : List Char → Bool
  | [] => pat.isEmpty
  | c :: rest => pat.isPrefixOf (c :: rest) || occursIn pat rest

/-- Association-list update with Python `dict` semantics: assigning to an
existing key overwrites its value in place, a new key is appended. -/
def assocSet {β : Type} : List (String × β) → String → β → List (String × β)
  | [], k, v => [(k, v)]
  | (k0, v0) :: rest, k, v =>
    if k0 = k then (k0, v) :: rest else (k0, v0) :: assocSet rest k v

/-- Association-list lookup (Python `dict.get`). -/
def lookupA {β : Type} : List (String × β) → String → Option β
  | [], _ => none
  | (k0, v0) :: rest, k => if k0 = k then some v0 else lookupA rest k

/-- Fold a list of key/value pairs into an association list, later pairs
overwriting earlier ones (a sequence of Python `d[k] = v` statements). -/
def foldAssoc {β : Type} (m : List (String × β)) (ps : List (String × β)) :
    List (String × β) :=
  ps.foldl (fun a p => assocSet a p.1 p.2) m

/-- Append the elements of `l` that are not already present to `base`,
keeping first-seen order (the `for x in l: if x not in acc: acc.append(x)`
idiom used throughout `field_mapping_view`). -/
def appendAbsent (base l : List String) : List String :=
  l.foldl (fun acc x => if x ∈ acc then acc else acc ++ [x]) base

/-- Python `list(dict.fromkeys(l))`: de-duplicate keeping first occurrences. -/
def dedupKeepFirst (l : List String) : List String :=
  appendAbsent [] l

/-- First index satisfying a predicate (a Python `for ... enumerate ...
break` search, and `list.index` when the predicate is equality). -/
def firstIdx {α : Type} (p : α → Bool) : List α → Option Nat
  | [] => none
  | x :: xs => if p x then some 0 else (firstIdx p xs).map Nat.succ

/-- Lexicographic `≤` on code points, the order Python `sorted` uses for
strings. -/
def lexLe : List Char → List Char → Bool
  | [], _ => true
  | _ :: _, [] => false
  | a :: as, b :: bs =>
    if a.toNat < b.toNat then true
    else if b.toNat < a.toNat then false
    else lexLe as bs

/-- Insert into an ascending list (helper for `sortStrings`). -/
def insertStr (x : String) : List String → List String
  | [] => [x]
  | y :: ys => if lexLe x.data y.data then x :: y :: ys else y :: insertStr x ys

/-- Python `sorted` on a list of strings (insertion sort; agrees with
Python's stable ascending sort). -/
def sortStrings : List String → List String
  | [] => []
  | x :: xs => insertStr x (sortStrings xs)

/-!  Models of the individual regular expressions of `field_mapping_view`.
Each scanner reproduces the leftmost-match / greedy-quantifier behaviour of
the corresponding `re.search` / `re.findall` call; see the line references
into `myapp/views.py` in the doc comments. -/

/-- `re.search(r'mappingId\s+(\S+)', txt)` (views.py lines 218 and 296):
the first occurrence of the literal followed by at least one whitespace
character, capturing the maximal following non-whitespace run. -/
def extractMid (s : List Char) : Option (List Char) :=
  (List.range (s.length + 1)).findSome? fun i =>
    if litAt "mappingId".data s i then
      let p := i + 9
      let w := wsRunLen s p
      if w = 0 then none
      else
        let tok := (s.drop (p + w)).takeWhile (fun c => !isPySpace c)
        if tok = [] then none else some tok
    else none

/-- `re.search(kw + r'\s+(.*?)' + delim, s, re.S)` for a literal keyword
and delimiter: the greedy `\s+` consumes the maximal whitespace run after
the keyword, then the lazy `(.*?)` stops at the first occurrence of the
delimiter; if the delimiter only occurs inside the whitespace run, `\s+`
backtracks and the capture is empty.  Models views.py lines 219
(`target\s+(.*?)\nsource`) and 297 (`target\s+(.*?)\n`). -/
def extractBetween (kw delim s : List Char) : Option (List Char) :=
  (List.range (s.length + 1)).findSome? fun i =>
    if litAt kw s i then
      let p := i + kw.length
      let w := wsRunLen s p
      if w = 0 then none
      else
        match firstOccurFrom delim s (p + w) with
        | some q => some (sliceL s (p + w) q)
        | none =>
          if (List.range (w - 1)).any (fun t => litAt delim s (p + 1 + t)) then some []
          else none
    else none

/-- `re.search(kw + r'\s+(.*)', s, re.S)`: everything after the maximal
whitespace run following the first occurrence of the keyword.  Models
views.py lines 220 and 303 (`source\s+(.*)`) and 332--333
(`WHERE\s+(.*)`). -/
def afterKwRest (kw s : List Char) : Option (List Char) :=
  (List.range (s.length + 1)).findSome? fun i =>
    if litAt kw s i then
      let p := i + kw.length
      let w := wsRunLen s p
      if w = 0 then none else some (s.drop (p + w))
    else none

/-- `re.search(r'FROM\s+"([^"]+)"', src)` (views.py lines 221 and 304):
the default table name quoted after the first suitable `FROM`. -/
def extractFromTable (s : List Char) : Option String :=
  (List.range (s.length + 1)).findSome? fun i =>
    if litAt "FROM".data s i then
      let p := i + 4
      let w := wsRunLen s p
      if w = 0 then none
      else if s.get? (p + w) = some '"' then
        let run := (s.drop (p + w + 1)).takeWhile (fun c => c != '"')
        if run ≠ [] ∧ s.get? (p + w + 1 + run.length) = some '"' then
          some (String.mk run)
        else none
      else none
    else none

/-- `re.search(r'@collection\s*\[\[(.*)\]\]', rest, re.S)` (views.py lines
208 and 287): greedy `(.*)` captures up to the last `]]`. -/
def extractCollection (s : List Char) : Option (List Char) :=
  (List.range (s.length + 1)).findSome? fun i =>
    if litAt "@collection".data s i then
      let p := i + 11
      let w := wsRunLen s p
      let k := p + w
      if litAt "[[".data s k then
        match lastOccurFrom "]]".data s (k + 2) with
        | some q => some (sliceL s (k + 2) q)
        | none => none
      else none
    else none

/-- `raw.split('[MappingDeclaration]', 1)` (views.py lines 207 and 286):
`none` models the `ValueError` raised by the two-target unpacking when the
marker is absent. -/
def splitOnceMarker (s : List Char) : Option (List Char × List Char) :=
  match firstOccurFrom "[MappingDeclaration]".data s 0 with
  | some i => some (s.take i, s.drop (i + 20))
  | none => none

/-- The separator regex `\n\s*\nmappingId` of `re.split` (views.py lines
211 and 288) matched at index `i`; returns the length of the match.  The
inner `\s*` is greedy, so the longest feasible whitespace run is taken. -/
def chunkSepAt (s : List Char) (i : Nat) : Option Nat :=
  if s.get? i = some '\n' then
    let wmax := wsRunLen s (i + 1)
    ((List.range (wmax + 1)).reverse.find? fun k =>
        s.get? (i + 1 + k) == some '\n' && litAt "mappingId".data s (i + 2 + k)).map
      (fun k => k + 11)
  else none

/-- Worker for `splitChunks`; `i` is the scan position, `cur` the current
chunk accumulated in reverse. -/
def splitChunksGo (s : List Char) : Nat → Nat → List Char → List (List Char)
  | 0, _, cur => [cur.reverse]
  | fuel + 1, i, cur =>
    if i < s.length then
      match chunkSepAt s i with
      | some len => cur.reverse :: splitChunksGo s fuel (i + len) []
      | none => splitChunksGo s fuel (i + 1) (s.getD i ' ' :: cur)
    else [cur.reverse]

/-- `re.split(r'\n\s*\nmappingId', s)` (views.py lines 211 and 288). -/
def splitChunks (s : List Char) : List (List Char) :=
  splitChunksGo s (s.length + 1) 0 []

/-- Worker for `braceVars`. -/
def braceVarsGo (s : List Char) : Nat → Nat → List String
  | 0, _ => []
  | fuel + 1, i =>
    if i < s.length then
      if s.get? i = some '{' then
        let run := (s.drop (i + 1)).takeWhile isWordChar
        if run ≠ [] ∧ s.get? (i + 1 + run.length) = some '}' then
          String.mk run :: braceVarsGo s fuel (i + run.length + 2)
        else braceVarsGo s fuel (i + 1)
      else braceVarsGo s fuel (i + 1)
    else []

/-- `re.findall(r'\{(\w+)\}', tgt)` (views.py lines 223 and 299): the
placeholder names wrapped in braces, in order of occurrence. -/
def braceVars (s : List Char) : List String :=
  braceVarsGo s (s.length + 1) 0

/-- The lookahead `(?=(?:=|<>|IS\s+NOT\s+NULL|IS\s+NULL))` of the
filter-column pattern (views.py line 226), case-insensitively, at
position `k`. -/
def opAheadAt (s : List Char) (k : Nat) : Bool :=
  litAt "=".data s k || litAt "<>".data s k ||
    (ciLitAt "is".data s k &&
      (let w := wsRunLen s (k + 2)
       decide (0 < w) &&
         (ciLitAt "null".data s (k + 2 + w) ||
           (ciLitAt "not".data s (k + 2 + w) &&
             (let w2 := wsRunLen s (k + 5 + w)
              decide (0 < w2) && ciLitAt "null".data s (k + 5 + w + w2))))))

/-- Worker for `opFilterIds`. -/
def opFilterGo (s : List Char) : Nat → Nat → List String
  | 0, _ => []
  | fuel + 1, i =>
    if i < s.length then
      if boundaryAt s i &&
          (match s.get? i with
           | some c => isIdentStart c
           | none => false) then
        let run := (s.drop i).takeWhile isWordChar
        let j := i + run.length
        let w := wsRunLen s j
        if opAheadAt s (j + w) then String.mk run :: opFilterGo s fuel (j + w)
        else opFilterGo s fuel (i + 1)
      else opFilterGo s fuel (i + 1)
    else []

/-- `re.findall(r'\b([A-Za-z_]\w*)\b\s*(?=(?:=|<>|IS\s+NOT\s+NULL|IS\s+NULL))',
src, re.IGNORECASE)` (views.py lines 226--227): identifiers immediately
followed by a comparison operator or an `IS [NOT] NULL` test. -/
def opFilterIds (s : List Char) : List String :=
  opFilterGo s (s.length + 1) 0

/-- Worker for `isnanArgs`. -/
def isnanGo (s : List Char) : Nat → Nat → List String
  | 0, _ => []
  | fuel + 1, i =>
    if i < s.length then
      if boundaryAt s i && ciLitAt "isnan".data s i then
        let w1 := wsRunLen s (i + 5)
        let k := i + 5 + w1
        if s.get? k = some '(' then
          let w2 := wsRunLen s (k + 1)
          let m := k + 1 + w2
          if (match s.get? m with
              | some c => isIdentStart c
              | none => false) then
            let run := (s.drop m).takeWhile isWordChar
            let w3 := wsRunLen s (m + run.length)
            if s.get? (m + run.length + w3) = some ')' then
              String.mk run :: isnanGo s fuel (m + run.length + w3 + 1)
            else isnanGo s fuel (i + 1)
          else isnanGo s fuel (i + 1)
        else isnanGo s fuel (i + 1)
      else isnanGo s fuel (i + 1)
    else []

/-- `re.findall(r'\bISNAN\s*\(\s*([A-Za-z_]\w*)\s*\)', src, re.IGNORECASE)`
(views.py lines 230--231): arguments of `ISNAN(...)` calls. -/
def isnanArgs (s : List Char) : List String :=
  isnanGo s (s.length + 1) 0

/-- Worker for `eqIdents`. -/
def eqIdentsGo (s : List Char) : Nat → Nat → List String
  | 0, _ => []
  | fuel + 1, i =>
    if i < s.length then
      if wordAt s i then
        let run := (s.drop i).takeWhile isWordChar
        let w := wsRunLen s (i + run.length)
        if s.get? (i + run.length + w) = some '=' then
          String.mk run :: eqIdentsGo s fuel (i + run.length + w + 1)
        else eqIdentsGo s fuel (i + 1)
      else eqIdentsGo s fuel (i + 1)
    else []

/-- `re.findall(r'(\w+)\s*=', whereText)` (views.py lines 335--336): the
identifiers immediately followed by `=` in a WHERE clause. -/
def eqIdents (s : List Char) : List String :=
  eqIdentsGo s (s.length + 1) 0

/-- One attempt of the alias pattern
`rf"([^\s,]+)\s+AS\s+{re.escape(var)}\b"` (views.py lines 313--315) at
position `i`: a maximal run of non-space non-comma characters, whitespace,
the literal `AS`, whitespace, the placeholder name, and a word boundary. -/
def aliasAt (var : String) (s : List Char) (i : Nat) : Option (List Char) :=
  let tok := (s.drop i).takeWhile (fun c => !isPySpace c && c != ',')
  if tok = [] then none
  else
    let j := i + tok.length
    let w1 := wsRunLen s j
    if w1 = 0 then none
    else if litAt "AS".data s (j + w1) then
      let l := j + w1 + 2
      let w2 := wsRunLen s l
      if w2 = 0 then none
      else if litAt var.data s (l + w2) && boundaryAt s (l + w2 + var.length) then
        some tok
      else none
    else none

/-- The leftmost match of the alias pattern in the instantiated source
line (views.py lines 313--315). -/
def findAsAlias (var : String) (s : List Char) : Option (List Char) :=
  (List.range (s.length + 1)).findSome? fun i => aliasAt var s i

/-- Worker for `slugify`: collapse runs of hyphens/whitespace to a single
hyphen (`re.sub(r"[-\s]+", "-", value)`); the flag records whether the
previous character was part of such a run. -/
def collapseGo : Bool → List Char → List Char
  | _, [] => []
  | prev, c :: rest =>
    if c == '-' || isPySpace c then
      if prev then collapseGo true rest else '-' :: collapseGo true rest
    else c :: collapseGo false rest

/-- Django `slugify` restricted to ASCII input: lowercase, delete
characters outside `[\w\s-]`, collapse `[-\s]+` runs to `-`, strip
leading/trailing `-` and `_`. -/
def slugify (s : List Char) : List Char :=
  let kept := (s.map Char.toLower).filter fun c =>
    isWordChar c || isPySpace c || c == '-'
  let collapsed := collapseGo false kept
  let dashUnd := fun c => c == '-' || c == '_'
  ((collapsed.dropWhile dashUnd).reverse.dropWhile dashUnd).reverse

/-- `slugify(x).replace('-', '_')`, the normalization used at views.py
lines 267, 381 and 383. -/
def slugU (x : String) : String :=
  String.mk ((slugify x.data).map fun c => if c = '-' then '_' else c)

/-- Canonicalization of a template block's default table name against the
schema (views.py lines 263--268): verbatim if present, else slugified with
underscores, else spaces replaced by underscores. -/
def canonTable (schema : List (String × List String)) (raw? : Option String) : String :=
  let raw := raw?.getD ""
  if (lookupA schema raw).isSome then raw
  else
    let alt := slugU raw
    if (lookupA schema alt).isSome then alt
    else String.mk (raw.data.map fun c => if c = ' ' then '_' else c)

/-- `extract_columns_from_sql` (views.py lines 44--55): the available
columns that occur whole-word, case-insensitively, in the SQL text,
sorted. -/
def extract_columns_from_sql (sql : List Char) (available_cols : List String) :
    List String :=
  sortStrings (available_cols.filter fun col =>
    occursWholeWord (col.data.map Char.toLower) (sql.map Char.toLower))

/-- Placeholder extraction of the template parser (views.py lines
222--240): the `{name}` tokens of the target de-duplicated in first-seen
order, then the filter-only identifiers of the source (`=`/`<>`/`IS [NOT]
NULL` comparands and `ISNAN` arguments) appended when absent. -/
def blockPlaceholders (tgt src : List Char) : List String :=
  let vars := dedupKeepFirst (braceVars tgt)
  let filters := dedupKeepFirst (opFilterIds src ++ isnanArgs src)
  appendAbsent vars filters

/-- Step 2b of `field_mapping_view` (views.py lines 261--279): after
schema introspection, any column of the (canonicalized) default table
occurring whole-word in the source SQL is appended to the block's
placeholder list when not already present. -/
def fullBlockPlaceholders (tgt src : List Char)
    (schema : List (String × List String)) : List String :=
  let phs := blockPlaceholders tgt src
  let tbl := canonTable schema (extractFromTable src)
  let cols := (lookupA schema tbl).getD []
  appendAbsent phs (extract_columns_from_sql src cols)

/-- A parsed template mapping block (views.py lines 243--250). -/
structure TplBlock where
  mappingId : String
  target : List Char
  sourceTpl : List Char
  tableDefault : Option String
  placeholders : List String
deriving DecidableEq

/-- The alias / bare-identifier pass of the reconciliation loop (views.py
lines 307--323): for each template placeholder, a `<token> AS var` match
associates `var` with the unquoted token (a fully quoted token associates
nothing), otherwise a whole-word occurrence of `var` associates it with
itself. -/
def aliasPass (placeholders : List String) (srcLine : List Char) :
    List (String × String) :=
  placeholders.foldl
    (fun m var =>
      match findAsAlias var srcLine with
      | some tok =>
        if (match tok.head? with
            | some c => isQuote c
            | none => false) &&
            (match tok.getLast? with
             | some c => isQuote c
             | none => false) then m
        else assocSet m var (String.mk (stripQuotes tok))
      | none =>
        if occursWholeWord var.data srcLine then assocSet m var var else m)
    []

/-- Alias/bare pass followed by the positional fallback (views.py lines
307--328): when some placeholder is still unresolved and the instantiated
target's placeholder count equals the template's, every placeholder is
assigned the same-position saved name. -/
def aliasBarePosPass (placeholders savedVars : List String)
    (srcLine : List Char) : List (String × String) :=
  if (placeholders.filter fun v =>
        (lookupA (aliasPass placeholders srcLine) v).isNone) ≠ [] ∧
      savedVars.length = placeholders.length then
    foldAssoc (aliasPass placeholders srcLine) (placeholders.zip savedVars)
  else aliasPass placeholders srcLine

/-- The WHERE-clause filter realignment (views.py lines 331--338): if both
the template source and the instantiated source have a `WHERE` clause and
their `=`-comparand sequences have equal length, zip them. -/
def whereFilterMap (tmplSrc srcLine : List Char) : List (String × String) :=
  match afterKwRest "WHERE".data tmplSrc, afterKwRest "WHERE".data srcLine with
  | some tw, some mw =>
    let o := eqIdents tw
    let n := eqIdents mw
    if o.length = n.length then o.zip n else []
  | _, _ => []

/-- The complete per-block placeholder association of the reconciliation
step (views.py lines 307--342): alias/bare detection, positional fallback,
then the filter realignment merged on top. -/
def phMapFor (placeholders savedVars : List String) (srcLine tmplSrc : List Char) :
    List (String × String) :=
  foldAssoc (aliasBarePosPass placeholders savedVars srcLine)
    (whereFilterMap tmplSrc srcLine)

/-- Entry of the parsed instantiated document for one mapping id
(views.py lines 344--347). -/
structure ExistEntry where
  table : Option String
  phMap : List (String × String)
deriving DecidableEq

/-- The two dictionaries built while parsing the previously instantiated
document (views.py lines 282--283): `existing` and
`existing_placeholders`. -/
structure ExistState where
  existing : List (String × ExistEntry)
  existingPh : List (String × List String)
deriving DecidableEq

/-- The `txt.strip()` / `'mappingId ' + txt` preparation of a chunk
(views.py lines 289--293). -/
def prepChunk (chunk : List Char) : List Char :=
  let txt := pyStrip chunk
  if "mappingId".data.isPrefixOf txt then txt else "mappingId ".data ++ txt

/-- Processing of one chunk of the instantiated document inside the
`try`/`except` of views.py lines 288--349.  Each failing extraction models
the exception raised at that point: the state accumulated so far is kept
and the chunk is abandoned (`except Exception: continue`).  Note that
`existing_placeholders[mid]` is assigned *before* the source line is
extracted, so a block failing only there still leaves that entry behind.
When no template block matches `mid`, the leaked loop variable `blk` of
the `for blk in mapping_blocks` loop refers to the last template block
(and the chunk fails with a `NameError` when there are no template blocks
at all). -/
def chunkStep (tblocks : List TplBlock) (st : ExistState) (chunk : List Char) :
    ExistState :=
  let txt := pyStrip chunk
  if txt = [] then st
  else
    let blkTxt := prepChunk chunk
    match extractMid blkTxt with
    | none => st
    | some midL =>
      let mid := String.mk midL
      match extractBetween "target".data "\n".data blkTxt with
      | none => st
      | some tgtRaw =>
        let savedVars := dedupKeepFirst (braceVars (pyStrip tgtRaw))
        let st1 : ExistState :=
          { st with existingPh := assocSet st.existingPh mid savedVars }
        match (afterKwRest "source".data blkTxt).map pyStrip with
        | none => st1
        | some srcLine =>
          let tbl := extractFromTable srcLine
          match tblocks.find? (fun b => b.mappingId == mid) with
          | some blk =>
            let phm := phMapFor blk.placeholders savedVars srcLine blk.sourceTpl
            { st1 with existing := assocSet st1.existing mid ⟨tbl, phm⟩ }
          | none =>
            match tblocks.getLast? with
            | some lastBlk =>
              let phm := foldAssoc [] (whereFilterMap lastBlk.sourceTpl srcLine)
              { st1 with existing := assocSet st1.existing mid ⟨tbl, phm⟩ }
            | none => st1
  /- `none` case above: with no template blocks the reference to `blk` at
  views.py line 332 raises `NameError`, caught by the `except`. -/

/-- Fold the chunk list through `chunkStep` (the `for chunk in re.split(...)`
loop of views.py line 288). -/
def parseChunksList (tblocks : List TplBlock) (st : ExistState)
    (chunks : List (List Char)) : ExistState :=
  chunks.foldl (chunkStep tblocks) st

/-- The uncaught failures of views.py lines 286--287: a document without
the section marker (`ValueError` from two-target unpacking) or without the
`@collection [[...]]` wrapper (`AttributeError` on `None.group`). -/
inductive AbortErr where
  | noMarker
  | noCollection
deriving DecidableEq

/-- Parsing of the previously instantiated OBDA document (views.py lines
282--349).  `none` input models a missing file (`os.path.exists` is
false): both dictionaries stay empty.  An `error` result models an
uncaught exception aborting the whole request. -/
def parseExistingDoc (tblocks : List TplBlock) (file : Option (List Char)) :
    Except AbortErr ExistState :=
  match file with
  | none => Except.ok ⟨[], []⟩
  | some raw =>
    match splitOnceMarker raw with
    | none => Except.error AbortErr.noMarker
    | some (_, body) =>
      match extractCollection body with
      | none => Except.error AbortErr.noCollection
      | some inner =>
        Except.ok (parseChunksList tblocks ⟨[], []⟩ (splitChunks (pyStrip inner)))

instance : DecidableEq (Except AbortErr ExistState) := fun x y =>
  match x, y with
  | Except.ok a, Except.ok b =>
    decidable_of_iff (a = b) ⟨fun h => congrArg Except.ok h, fun h => Except.ok.inj h⟩
  | Except.error a, Except.error b =>
    decidable_of_iff (a = b)
      ⟨fun h => congrArg Except.error h, fun h => Except.error.inj h⟩
  | Except.ok _, Except.error _ => isFalse fun h => Except.noConfusion h
  | Except.error _, Except.ok _ => isFalse fun h => Except.noConfusion h

/-- The three-tier column matching of views.py lines 370--384: exact
(`col in cols` / `cols.index`), then case-insensitive, then slugified. -/
def match_idx (col : String) (cols : List String) : Option Nat :=
  match firstIdx (fun c => c == col) cols with
  | some i => some i
  | none =>
    match firstIdx (fun c => c.toLower == col.toLower) cols with
    | some j => some j
    | none => firstIdx (fun c => slugU c == slugU col) cols

/-- The column list used by the positional-connections step (views.py line
356): `tables_columns.get(existing.get(mid, {}).get('table'), [])` — the
saved table name is looked up verbatim, with `[]` as default. -/
def colsForSaved (schema : List (String × List String)) (tbl? : Option String) :
    List String :=
  match tbl? with
  | some t => (lookupA schema t).getD []
  | none => []

/-- Refinement reference for claim C8, following the spec's words: "If the
instantiated block's table name is not present verbatim in the schema, the
engine must also try it normalized the same way before giving up."  Not a
translation of the code — to be compared with `colsForSaved`. -/
def specColsForSaved (schema : List (String × List String)) (tbl? : Option String) :
    List String :=
  match tbl? with
  | some t =>
    match lookupA schema t with
    | some cs => cs
    | none => (lookupA schema (slugU t)).getD []
  | none => []

/-- Worker for `posMapFor`: the `for idx, var in enumerate(...)` loop of
views.py lines 360--388. -/
def posMapGo (cols savedVars : List String) (phm : List (String × String)) :
    Nat → List String → List (Nat × Nat)
  | _, [] => []
  | idx, var :: rest =>
    let col0 := lookupA phm var
    let col : Option String :=
      match col0 with
      | some c => some c
      | none => if idx < savedVars.length then savedVars.get? idx else none
    match col with
    | none => posMapGo cols savedVars phm (idx + 1) rest
    | some c =>
      if c = "" then posMapGo cols savedVars phm (idx + 1) rest
      else
        match match_idx c cols with
        | some j => (idx, j) :: posMapGo cols savedVars phm (idx + 1) rest
        | none => posMapGo cols savedVars phm (idx + 1) rest

/-- The positional ConnectionsMap for one template block (views.py lines
354--390). -/
def posMapFor (schema : List (String × List String)) (st : ExistState)
    (mid : String) (placeholders : List String) : List (Nat × Nat) :=
  let info := lookupA st.existing mid
  let tbl? : Option String :=
    match info with
    | some e => e.table
    | none => none
  let cols := colsForSaved schema tbl?
  let savedVars := (lookupA st.existingPh mid).getD []
  let phm :=
    match info with
    | some e => e.phMap
    | none => []
  posMapGo cols savedVars phm 0 placeholders

/-- Python `int(s)` on a string: optional surrounding whitespace, optional
sign, decimal digits with single internal underscores. -/
def pyIntDigitsGo : Nat → List Char → Option Nat
  | acc, [] => some acc
  | _, '_' :: [] => none
  | acc, '_' :: d :: rest =>
    if d.isDigit then pyIntDigitsGo (acc * 10 + (d.toNat - 48)) rest else none
  | acc, c :: rest =>
    if c.isDigit then pyIntDigitsGo (acc * 10 + (c.toNat - 48)) rest else none

/-- Digits of a Python int literal (must start with a digit). -/
def pyIntBody (cs : List Char) : Option Nat :=
  match cs with
  | [] => none
  | c :: rest =>
    if c.isDigit then pyIntDigitsGo (c.toNat - 48) rest else none

/-- Python `int(s)` (`ValueError` modelled as `none`). -/
def pyInt (s : String) : Option Int :=
  match pyStrip s.data with
  | '+' :: rest => (pyIntBody rest).map Int.ofNat
  | '-' :: rest => (pyIntBody rest).map fun n => -(Int.ofNat n)
  | cs => (pyIntBody cs).map Int.ofNat

/-- Python list indexing `l[i]` with negative-index wrap-around
(`IndexError` modelled as `none`). -/
def pyIdx {α : Type} (l : List α) (i : Int) : Option α :=
  if 0 ≤ i then l.get? i.toNat
  else if 0 ≤ i + l.length then l.get? (i + l.length).toNat
  else none

/-- One entry of the posted connections map (views.py lines 429--437): the
`try` converts key and value to indices into the placeholder and column
lists; on any failure the raw strings are used. -/
def connEntry (phs cols : List String) (key val : String) : String × String :=
  match pyInt key, pyInt val with
  | some pi, some ci =>
    match pyIdx phs pi, pyIdx cols ci with
    | some vn, some cn => (vn, cn)
    | _, _ => (key, val)
  | _, _ => (key, val)

/-- The whole `conn_map` dictionary for one block (views.py lines
428--437). -/
def connMapFor (phs cols : List String) (pairs : List (String × String)) :
    List (String × String) :=
  foldAssoc [] (pairs.map fun p => connEntry phs cols p.1 p.2)

/-- `tgt_inst.replace(f'{{{var}}}', '{' + col + '}')` (views.py line 442). -/
def substVarTgt (var col : String) (tgt : List Char) : List Char :=
  pyReplace ('{' :: var.data ++ ['}']) ('{' :: col.data ++ ['}']) tgt

/-- The four source replacements of views.py lines 443--446: the
placeholder name followed by a comma, space or closing parenthesis, or
preceded by an opening parenthesis, becomes the column name. -/
def substVarSrc (var col : String) (src : List Char) : List Char :=
  pyReplace ('(' :: var.data) ('(' :: col.data)
    (pyReplace (var.data ++ [')']) (col.data ++ [')'])
      (pyReplace (var.data ++ [' ']) (col.data ++ [' '])
        (pyReplace (var.data ++ [',']) (col.data ++ [',']) src)))

/-- `re.sub(r'FROM\s+"[^"]+"', f'FROM "{tbl}"', src)` (views.py line 423),
replacing every match. -/
def pySubFromGo (tbl : String) (s : List Char) : Nat → Nat → List Char
  | 0, _ => []
  | fuel + 1, i =>
    if i < s.length then
      let m : Option Nat :=
        if litAt "FROM".data s i then
          let p := i + 4
          let w := wsRunLen s p
          if w = 0 then none
          else if s.get? (p + w) = some '"' then
            let run := (s.drop (p + w + 1)).takeWhile (fun c => c != '"')
            if run ≠ [] ∧ s.get? (p + w + 1 + run.length) = some '"' then
              some (p + w + 1 + run.length + 1)
            else none
          else none
        else none
      match m with
      | some e =>
        ("FROM \"".data ++ tbl.data ++ ['"']) ++ pySubFromGo tbl s fuel e
      | none => s.getD i ' ' :: pySubFromGo tbl s fuel (i + 1)
    else []

/-- `re.sub(r'FROM\s+"[^"]+"', f'FROM "{tbl}"', src)` (views.py line 423). -/
def pySubFrom (src : List Char) (tbl : String) : List Char :=
  pySubFromGo tbl src (src.length + 1) 0

/-- One block of the instantiated document emitted by the POST handler
(views.py lines 448--454). -/
structure EmitBlock where
  mappingId : String
  target : List Char
  source : List Char
deriving DecidableEq

/-- The rewrite loop of views.py lines 416--454: blocks whose table choice
is empty (falsy) are skipped entirely; otherwise the table is substituted
into the FROM clause and every connections entry is substituted into the
target and source fragments.  `choice` gives the posted table selection
per mapping id (`""` = unselected) and `conns` the parsed per-block
connections entries. -/
def emitBlocks (schema : List (String × List String)) (choice : String → String)
    (conns : String → List (String × String)) : List TplBlock → List EmitBlock
  | [] => []
  | b :: rest =>
    let tbl := choice b.mappingId
    if tbl = "" then emitBlocks schema choice conns rest
    else
      let src0 := pySubFrom b.sourceTpl tbl
      let cols := (lookupA schema tbl).getD []
      let cm := connMapFor b.placeholders cols (conns b.mappingId)
      let inst := cm.foldl
        (fun (acc : List Char × List Char) p =>
          (substVarTgt p.1 p.2 acc.1, substVarSrc p.1 p.2 acc.2))
        (b.target, src0)
      ⟨b.mappingId, inst.1, inst.2⟩ :: emitBlocks schema choice conns rest

/-- The mapping-block identifiers of the persisted instantiated document,
in emission order. -/
def emittedIds (schema : List (String × List String)) (choice : String → String)
    (conns : String → List (String × String)) (blocks : List TplBlock) :
    List String :=
  (emitBlocks schema choice conns blocks).map (·.mappingId)

/-- Possible responses of the protected SPARQL endpoint. -/
inductive GateResponse where
  | methodNotAllowed
  | klAnalytics (q : String)
  | forwarded (q : String)
deriving DecidableEq

/-- The `protected_sparql` view as it stands in views.py lines 657--776.
The hash lookup against the allow-list, the stored-template comparison and
the access-level check (lines 669--700) are commented out in the source;
the live code forwards the caller's instantiated query `q` to the
downstream endpoint unconditionally (through the KL-divergence analytics
branch when `analytics_key == 'klDiv'`, directly otherwise).  The
`allow` and `userLevel` arguments are those the commented-out checks would
consult; the function never inspects them. -/
def protected_sparql (allow : String → Option (Nat × String)) (userLevel : Nat)
    (method : String) (tmpl q : String) (analyticsKey : Option String) :
    GateResponse :=
  let _ := allow
  let _ := userLevel
  let _ := tmpl
  if method ≠ "POST" then GateResponse.methodNotAllowed
  else
    let q' := String.mk (pyStrip q.data)
    if analyticsKey = some "klDiv" then GateResponse.klAnalytics q'
    else GateResponse.forwarded q'

/-- Example template blocks (as parsed from a template document with two
mapping blocks `m1` and `m3`), used for concrete evaluations of the
instantiated-document parser. -/
def tplDemoBlocks : List TplBlock :=
  [⟨"m1", ":s :p {a} .".data, "SELECT a FROM \"t\"".data, some "t", ["a"]⟩,
   ⟨"m3", ":s :q {b} .".data, "SELECT b FROM \"t\"".data, some "t", ["b"]⟩]

/-- A well-formed instantiated document for `tplDemoBlocks`. -/
def docWithoutBadBlock : String :=
  "head\n[MappingDeclaration] @collection [[\nmappingId m1\ntarget :s :p {a} .\nsource SELECT a FROM \"t\"\n\nmappingId m3\ntarget :s :q {b} .\nsource SELECT b FROM \"t\"\n]]"

/-- The same document with an extra malformed block `m2` (no `target`
fragment) inserted between the two good blocks. -/
def docWithBadBlock : String :=
  "head\n[MappingDeclaration] @collection [[\nmappingId m1\ntarget :s :p {a} .\nsource SELECT a FROM \"t\"\n\nmappingId m2\nnothing here\n\nmappingId m3\ntarget :s :q {b} .\nsource SELECT b FROM \"t\"\n]]"

/-!  Helper lemmas shared by the claim theorems. -/

theorem pyReplaceGo_of_not_occursIn (pat rep : List Char) :
    ∀ (fuel : Nat) (s : List Char), occursIn pat s = false →
      pyReplaceGo pat rep fuel s = s := by
  intro fuel
  induction fuel with
  | zero =>
    intro s _
    cases s <;> rfl
  | succ f ih =>
    intro s hs
    cases s with
    | nil => rfl
    | cons c rest =>
      simp only [occursIn, Bool.or_eq_false_iff] at hs
      simp only [pyReplaceGo, hs.1, if_false, Bool.false_eq_true]
      exact congrArg (c :: ·) (ih rest hs.2)

theorem pyReplace_of_not_occursIn (pat rep s : List Char)
    (h : occursIn pat s = false) : pyReplace pat rep s = s := by
  unfold pyReplace
  by_cases hp : pat = []
  · simp [hp]
  · simp only [hp, if_false]
    exact pyReplaceGo_of_not_occursIn pat rep s.length s h

theorem lookupA_assocSet {β : Type} (m : List (String × β)) (k : String) (v : β)
    (key : String) :
    lookupA (assocSet m k v) key = if key = k then some v else lookupA m key := by
  induction m with
  | nil =>
    by_cases h : key = k <;> simp [assocSet, lookupA, h]
    intro h2
    exact absurd h2.symm h
  | cons p rest ih =>
    obtain ⟨k0, v0⟩ := p
    by_cases h0 : k0 = k
    · subst h0
      by_cases h : key = k0
      · subst h
        simp [assocSet, lookupA]
      · have h' : ¬ (k0 = key) := fun hh => h hh.symm
        simp [assocSet, lookupA, h, h']
    · simp only [assocSet, h0, if_false]
      by_cases h1 : k0 = key
      · subst h1
        simp [lookupA, h0]
      · simp [lookupA, h1, ih]

theorem lookupA_foldAssoc_of_notMem {β : Type} (ps : List (String × β))
    (key : String) (h : key ∉ ps.map Prod.fst) :
    ∀ m, lookupA (foldAssoc m ps) key = lookupA m key := by
  induction ps with
  | nil => intro m; rfl
  | cons p rest ih =>
    intro m
    simp only [List.map_cons, List.mem_cons] at h
    push_neg at h
    have hrest : key ∉ rest.map Prod.fst := h.2
    show lookupA (foldAssoc (assocSet m p.1 p.2) rest) key = lookupA m key
    rw [ih hrest, lookupA_assocSet]
    simp [h.1]

theorem lookupA_foldAssoc_of_mem {β : Type} (ps : List (String × β))
    (key : String) (v : β) (hnd : (ps.map Prod.fst).Nodup) (hmem : (key, v) ∈ ps) :
    ∀ m, lookupA (foldAssoc m ps) key = some v := by
  induction ps with
  | nil => cases hmem
  | cons p rest ih =>
    intro m
    simp only [List.map_cons, List.nodup_cons] at hnd
    cases hmem with
    | head =>
      have hk : key ∉ rest.map Prod.fst := hnd.1
      show lookupA (foldAssoc (assocSet m key v) rest) key = some v
      rw [lookupA_foldAssoc_of_notMem rest key hk, lookupA_assocSet]
      simp
    | tail _ hmem2 =>
      exact ih hnd.2 hmem2 (assocSet m p.1 p.2)

theorem mem_zip_of_get? {α β : Type} :
    ∀ (l1 : List α) (l2 : List β) (i : Nat) (a : α) (b : β),
      l1.get? i = some a → l2.get? i = some b → (a, b) ∈ l1.zip l2 := by
  intro l1
  induction l1 with
  | nil => intro l2 i a b h1; cases h1
  | cons x xs ih =>
    intro l2 i a b h1 h2
    cases l2 with
    | nil => cases h2
    | cons y ys =>
      cases i with
      | zero =>
        cases h1
        cases h2
        exact List.mem_cons_self _ _
      | succ j =>
        exact List.mem_cons_of_mem _ (ih ys j a b h1 h2)

theorem firstIdx_eq_some_of {α : Type} (p : α → Bool) :
    ∀ (l : List α) (i : Nat) (a : α), l.get? i = some a → p a = true →
      (∀ b ∈ l.take i, p b = false) → firstIdx p l = some i := by
  intro l
  induction l with
  | nil => intro i a h; cases h
  | cons x xs ih =>
    intro i a hget hp hpre
    cases i with
    | zero =>
      cases hget
      simp [firstIdx, hp]
    | succ j =>
      have hx : p x = false := hpre x (by simp [List.take_succ_cons])
      have : ∀ b ∈ xs.take j, p b = false := by
        intro b hb
        exact hpre b (by simp [List.take_succ_cons, hb])
      simp [firstIdx, hx, ih j a hget hp this]

theorem firstIdx_eq_none_of {α : Type} (p : α → Bool) :
    ∀ (l : List α), (∀ b ∈ l, p b = false) → firstIdx p l = none := by
  intro l
  induction l with
  | nil => intro _; rfl
  | cons x xs ih =>
    intro h
    have hx := h x (List.mem_cons_self _ _)
    simp [firstIdx, hx, ih fun b hb => h b (List.mem_cons_of_mem _ hb)]

theorem appendAbsent_eq_append :
    ∀ (l base : List String), ∃ t, appendAbsent base l = base ++ t := by
  intro l
  induction l with
  | nil => intro base; exact ⟨[], by simp [appendAbsent]⟩
  | cons x xs ih =>
    intro base
    show ∃ t, appendAbsent (if x ∈ base then base else base ++ [x]) xs = base ++ t
    by_cases hx : x ∈ base
    · simpa [hx] using ih base
    · obtain ⟨t, ht⟩ := ih (base ++ [x])
      exact ⟨[x] ++ t, by simp [hx, ht]⟩

theorem appendAbsent_nodup :
    ∀ (l base : List String), base.Nodup → (appendAbsent base l).Nodup := by
  intro l
  induction l with
  | nil => intro base h; exact h
  | cons x xs ih =>
    intro base h
    show (appendAbsent (if x ∈ base then base else base ++ [x]) xs).Nodup
    by_cases hx : x ∈ base
    · simpa [hx] using ih base h
    · simp only [hx, if_false]
      refine ih (base ++ [x]) ?_
      simp [List.nodup_append, h, hx]

theorem mem_appendAbsent :
    ∀ (l base : List String) (y : String),
      y ∈ appendAbsent base l ↔ y ∈ base ∨ y ∈ l := by
  intro l
  induction l with
  | nil => intro base y; simp [appendAbsent]
  | cons x xs ih =>
    intro base y
    show y ∈ appendAbsent (if x ∈ base then base else base ++ [x]) xs ↔ _
    by_cases hx : x ∈ base
    · simp only [hx, if_true, ih]
      constructor
      · rintro (h | h)
        · exact Or.inl h
        · exact Or.inr (List.mem_cons_of_mem _ h)
      · rintro (h | h)
        · exact Or.inl h
        · rcases List.mem_cons.mp h with h | h
          · exact Or.inl (h ▸ hx)
          · exact Or.inr h
    · simp only [hx, if_false, ih]
      simp only [List.mem_append, List.mem_singleton, List.mem_cons]
      tauto

theorem posMapGo_nil_sources (cols : List String) :
    ∀ (phs : List String) (idx : Nat), posMapGo cols [] [] idx phs = [] := by
  intro phs
  induction phs with
  | nil => intro idx; rfl
  | cons v rest ih =>
    intro idx
    simp [posMapGo, lookupA, ih]

theorem chunkStep_eq_of_fail (tblocks : List TplBlock) (bad : List Char)
    (h : pyStrip bad = [] ∨ extractMid (prepChunk bad) = none ∨
      (extractMid (prepChunk bad)).isSome ∧
        extractBetween "target".data "\n".data (prepChunk bad) = none) :
    ∀ st, chunkStep tblocks st bad = st := by
  intro st
  unfold chunkStep
  rcases h with h | h | h
  · simp [h]
  · by_cases hemp : pyStrip bad = []
    · simp [hemp]
    · simp [hemp, h]
  · by_cases hemp : pyStrip bad = []
    · simp [hemp]
    · obtain ⟨hmid, htgt⟩ := h
      rcases Option.isSome_iff_exists.mp hmid with ⟨midL, hmidL⟩
      simp [hemp, hmidL, htgt]

theorem parseChunksList_append (tblocks : List TplBlock) (st : ExistState)
    (l1 l2 : List (List Char)) :
    parseChunksList tblocks st (l1 ++ l2) =
      parseChunksList tblocks (parseChunksList tblocks st l1) l2 := by
  unfold parseChunksList
  exact List.foldl_append _ _ l1 l2

/-!  Claim theorems. -/

/-- C1: the claim says the protected SPARQL endpoint hashes the submitted
template, rejects unknown templates and insufficient levels with an empty
result set without forwarding, and forwards only otherwise.  In the code
(views.py lines 657--776) every one of those checks is commented out: for
any POST request without the analytics key the view forwards the
(stripped) instantiated query downstream regardless of the allow-list
contents and of the access level — in particular for a template whose
digest is absent from the allow-list. -/
theorem c1_gate_forwards_unconditionally
    (allow : String → Option (Nat × String)) (userLevel : Nat) (tmpl q : String) :
    protected_sparql allow userLevel "POST" tmpl q none =
      GateResponse.forwarded (String.mk (pyStrip q.data)) := by
  rfl

/-- C2 counterexample: a template document with one mapping block whose
table selection is empty produces an instantiated document with no blocks
at all, so the emitted identifier sequence differs from the template's. -/
theorem c2_counterexample :
    emittedIds [] (fun _ => "") (fun _ => [])
        [⟨"m1", ":s :p {a} .".data, "SELECT a FROM \"t\"".data, some "t", ["a"]⟩] = []
    ∧ ([⟨"m1", ":s :p {a} .".data, "SELECT a FROM \"t\"".data, some "t", ["a"]⟩] :
        List TplBlock).map TplBlock.mappingId = ["m1"] := by
  exact ⟨rfl, rfl⟩

/-- C2 (amended): the emitted identifier sequence equals the template
block identifiers restricted to blocks with a non-empty table choice, in
template order; it is a subsequence of the template's identifier sequence
(so instantiation never adds, duplicates or reorders blocks, but it drops
every block whose table is unselected). -/
theorem c2_amended_emitted_ids (schema : List (String × List String))
    (choice : String → String) (conns : String → List (String × String))
    (blocks : List TplBlock) :
    emittedIds schema choice conns blocks =
      ((blocks.filter fun b => choice b.mappingId != "").map TplBlock.mappingId)
    ∧ List.Sublist (emittedIds schema choice conns blocks)
        (blocks.map TplBlock.mappingId) := by
  have key : ∀ bs : List TplBlock,
      emittedIds schema choice conns bs =
        ((bs.filter fun b => choice b.mappingId != "").map TplBlock.mappingId) := by
    intro bs
    induction bs with
    | nil => rfl
    | cons b rest ih =>
      by_cases h : choice b.mappingId = ""
      · simpa [emittedIds, emitBlocks, h] using ih
      · simpa [emittedIds, emitBlocks, h] using ih
  refine ⟨key blocks, ?_⟩
  rw [key blocks]
  exact (List.filter_sublist blocks).map TplBlock.mappingId

/-- C3 counterexample: with template placeholders `[a, b]`, an
instantiated source `SELECT col1 AS a FROM "t"` (alias detection resolves
`a ↦ col1`, `b` stays unresolved) and instantiated target placeholders
`[x, y]` of matching length, the positional fallback overwrites the alias
association: the final map sends `a` to `x`, not to `col1`. -/
theorem c3_counterexample :
    lookupA (aliasPass ["a", "b"] "SELECT col1 AS a FROM \"t\"".data) "a" =
      some "col1"
    ∧ lookupA (phMapFor ["a", "b"] ["x", "y"] "SELECT col1 AS a FROM \"t\"".data
        "SELECT a, b FROM \"t\"".data) "a" = some "x"
    ∧ ("x" : String) ≠ "col1" := by
  refine ⟨by decide, by decide, by decide⟩

/-- C3 (amended): when at least one placeholder is left unresolved by the
alias/bare pass and the instantiated target's placeholder count equals the
template's, the positional zip is applied to *every* placeholder —
overwriting alias/bare associations — and only the filter realignment
applied afterwards overrides it: every placeholder outside the filter
map's domain ends up associated with the same-position saved name. -/
theorem c3_amended_positional_overwrites (placeholders savedVars : List String)
    (srcLine tmplSrc : List Char) (i : Nat) (var sv : String)
    (hnd : placeholders.Nodup)
    (hmiss : placeholders.filter
      (fun v => (lookupA (aliasPass placeholders srcLine) v).isNone) ≠ [])
    (hlen : savedVars.length = placeholders.length)
    (hv : placeholders.get? i = some var)
    (hsv : savedVars.get? i = some sv)
    (hfm : var ∉ (whereFilterMap tmplSrc srcLine).map Prod.fst) :
    lookupA (phMapFor placeholders savedVars srcLine tmplSrc) var = some sv := by
  unfold phMapFor
  rw [lookupA_foldAssoc_of_notMem _ _ hfm]
  unfold aliasBarePosPass
  rw [if_pos ⟨hmiss, hlen⟩]
  have hkeys : (placeholders.zip savedVars).map Prod.fst = placeholders :=
    List.map_fst_zip _ _ (le_of_eq hlen.symm)
  have hmem : (var, sv) ∈ placeholders.zip savedVars :=
    mem_zip_of_get? _ _ i var sv hv hsv
  have hnd2 : ((placeholders.zip savedVars).map Prod.fst).Nodup := by
    rw [hkeys]; exact hnd
  exact lookupA_foldAssoc_of_mem _ _ _ hnd2 hmem _

/-- C3 witness: the amended theorem applied at the counterexample input. -/
theorem c3_witness :
    lookupA (phMapFor ["a", "b"] ["x", "y"] "SELECT col1 AS a FROM \"t\"".data
      "SELECT a, b FROM \"t\"".data) "a" = some "x" :=
  c3_amended_positional_overwrites ["a", "b"] ["x", "y"]
    "SELECT col1 AS a FROM \"t\"".data "SELECT a, b FROM \"t\"".data 0 "a" "x"
    (by decide) (by decide) (by decide) (by decide) (by decide) (by decide)

/-- C4 counterexample: the claim's own example fails — with placeholder
`id` and column `Col`, the identifier `patient_id` (which merely contains
`id` as a suffix, followed by a comma) is corrupted to `patient_Col` by
`str.replace('id,', 'Col,')`, because the replacement is not anchored on
the left. -/
theorem c4_counterexample :
    substVarSrc "id" "Col" "SELECT patient_id, name FROM t".data =
      "SELECT patient_Col, name FROM t".data
    ∧ substVarSrc "id" "Col" "SELECT patient_id, name FROM t".data ≠
      "SELECT patient_id, name FROM t".data := by
  refine ⟨by decide, by decide⟩

/-- C4 (amended): the rewrite replaces exactly the occurrences of the
placeholder name that are immediately followed by a comma, space or
closing parenthesis, or immediately preceded by an opening parenthesis —
whether or not the occurrence is part of a longer identifier.  In
particular a source fragment containing none of those four
delimiter-adjacent patterns is left completely unchanged, even when it
contains the placeholder name as a substring. -/
theorem c4_amended_no_delimiter_no_change (var col : String) (src : List Char)
    (h1 : occursIn (var.data ++ [',']) src = false)
    (h2 : occursIn (var.data ++ [' ']) src = false)
    (h3 : occursIn (var.data ++ [')']) src = false)
    (h4 : occursIn ('(' :: var.data) src = false) :
    substVarSrc var col src = src := by
  unfold substVarSrc
  rw [pyReplace_of_not_occursIn _ _ _ h1, pyReplace_of_not_occursIn _ _ _ h2,
      pyReplace_of_not_occursIn _ _ _ h3, pyReplace_of_not_occursIn _ _ _ h4]

/-- C4 witness: `taxidermy` contains `id` with no adjacent delimiter and
survives the substitution untouched. -/
theorem c4_witness : substVarSrc "id" "Col" "taxidermy".data = "taxidermy".data :=
  c4_amended_no_delimiter_no_change "id" "Col" "taxidermy".data
    (by decide) (by decide) (by decide) (by decide)

set_option maxRecDepth 100000 in
/-- C5 counterexample: parsing an instantiated document containing a
malformed block (`m2`, lacking a `target` fragment) produces *exactly* the
same state as parsing the document without that block — the good block
after it is still parsed, and no trace of the failure is recorded
anywhere in the result. -/
theorem c5_counterexample :
    parseExistingDoc tplDemoBlocks (some docWithBadBlock.data) =
      parseExistingDoc tplDemoBlocks (some docWithoutBadBlock.data)
    ∧ parseExistingDoc tplDemoBlocks (some docWithBadBlock.data) =
      Except.ok
        ⟨[("m1", ⟨some "t", [("a", "a")]⟩), ("m3", ⟨some "t", [("b", "b")]⟩)],
         [("m1", ["a"]), ("m3", ["b"])]⟩ := by
  refine ⟨by decide, by decide⟩

/-- C5 (amended): a block whose identifier or target fragment cannot be
extracted is skipped without aborting the parse of the remaining blocks,
and it is silently dropped: the resulting state is identical to that of
the chunk sequence without the failing chunk, so nothing records which
blocks failed. -/
theorem c5_amended_skip_is_silent (tblocks : List TplBlock) (st : ExistState)
    (pre post : List (List Char)) (bad : List Char)
    (h : pyStrip bad = [] ∨ extractMid (prepChunk bad) = none ∨
      (extractMid (prepChunk bad)).isSome ∧
        extractBetween "target".data "\n".data (prepChunk bad) = none) :
    parseChunksList tblocks st (pre ++ bad :: post) =
      parseChunksList tblocks st (pre ++ post) := by
  rw [parseChunksList_append, parseChunksList_append]
  generalize parseChunksList tblocks st pre = st1
  show parseChunksList tblocks st1 (bad :: post) = parseChunksList tblocks st1 post
  unfold parseChunksList
  rw [List.foldl_cons, chunkStep_eq_of_fail tblocks bad h st1]

/-- C5 witness: the amended theorem applied to a one-chunk document whose
only chunk has no target fragment. -/
theorem c5_witness :
    parseChunksList tplDemoBlocks ⟨[], []⟩ (["nothing here".data]) =
      parseChunksList tplDemoBlocks ⟨[], []⟩ [] :=
  c5_amended_skip_is_silent tplDemoBlocks ⟨[], []⟩ [] [] "nothing here".data
    (Or.inr (Or.inr ⟨by decide, by decide⟩))

/-- C6: the three column-matching tiers are tried in rank order with the
first hit winning — an exact match (even a later one) beats any
case-insensitive match; the case-insensitive tier is consulted only when
no exact match exists; the slugified tier only when neither of the first
two hits. -/
theorem c6_tier_priority (col : String) (cols : List String) :
    (∀ i, cols.get? i = some col → (∀ b ∈ cols.take i, b ≠ col) →
      match_idx col cols = some i)
    ∧ ((∀ b ∈ cols, b ≠ col) →
      ∀ i c, cols.get? i = some c → c.toLower = col.toLower →
        (∀ b ∈ cols.take i, b.toLower ≠ col.toLower) →
        match_idx col cols = some i)
    ∧ ((∀ b ∈ cols, b ≠ col) → (∀ b ∈ cols, b.toLower ≠ col.toLower) →
      match_idx col cols =
        firstIdx (fun c => slugU c == slugU col) cols) := by
  refine ⟨?_, ?_, ?_⟩
  · intro i hget hpre
    have h1 : firstIdx (fun c => c == col) cols = some i := by
      refine firstIdx_eq_some_of _ cols i col hget (by simp) ?_
      intro b hb
      simp only [beq_eq_false_iff_ne, ne_eq]
      exact hpre b hb
    simp [match_idx, h1]
  · intro hne i c hget hlow hpre
    have h1 : firstIdx (fun c => c == col) cols = none := by
      refine firstIdx_eq_none_of _ cols ?_
      intro b hb
      simp only [beq_eq_false_iff_ne, ne_eq]
      exact hne b hb
    have h2 : firstIdx (fun c => c.toLower == col.toLower) cols = some i := by
      refine firstIdx_eq_some_of _ cols i c hget (by simp [hlow]) ?_
      intro b hb
      simp only [beq_eq_false_iff_ne, ne_eq]
      exact hpre b hb
    simp [match_idx, h1, h2]
  · intro hne hci
    have h1 : firstIdx (fun c => c == col) cols = none := by
      refine firstIdx_eq_none_of _ cols ?_
      intro b hb
      simp only [beq_eq_false_iff_ne, ne_eq]
      exact hne b hb
    have h2 : firstIdx (fun c => c.toLower == col.toLower) cols = none := by
      refine firstIdx_eq_none_of _ cols ?_
      intro b hb
      simp only [beq_eq_false_iff_ne, ne_eq]
      exact hci b hb
    simp [match_idx, h1, h2]

/-- C6 witness: the claim's scenario — `age` matches `["Age", "age"]`
exactly at index 1 and only case-insensitively at index 0; the exact match
wins. -/
theorem c6_witness : match_idx "age" ["Age", "age"] = some 1 :=
  (c6_tier_priority "age" ["Age", "age"]).1 1 (by decide) (by decide)

/-- C7 counterexample: a corrupt instantiated document lacking the
`[MappingDeclaration]` marker makes the parse raise (the two-target
unpacking `ValueError` at views.py line 286 is outside any handler),
aborting the whole request instead of degrading to "no prior mapping". -/
theorem c7_counterexample :
    parseExistingDoc tplDemoBlocks (some "this doc has no marker".data) =
      Except.error AbortErr.noMarker := by
  decide

/-- C7 (amended): when no instantiated document exists the parse yields
the empty state and reconciliation produces an empty ConnectionsMap for
every block — but a present document missing its section marker or
collection wrapper raises instead of degrading (see the counterexample). -/
theorem c7_amended_missing_doc_empty (tblocks : List TplBlock) :
    parseExistingDoc tblocks none = Except.ok ⟨[], []⟩
    ∧ ∀ (schema : List (String × List String)) (mid : String)
        (phs : List String), posMapFor schema ⟨[], []⟩ mid phs = [] := by
  refine ⟨rfl, ?_⟩
  intro schema mid phs
  exact posMapGo_nil_sources [] phs 0

/-- C8 counterexample: with schema `{my_table: [a, b]}` and saved table
name `My Table`, the code's verbatim lookup (views.py line 356) yields the
empty column list even though the spec's normalized retry would find
`my_table` and yield `[a, b]`. -/
theorem c8_counterexample :
    colsForSaved [("my_table", ["a", "b"])] (some "My Table") = []
    ∧ specColsForSaved [("my_table", ["a", "b"])] (some "My Table") = ["a", "b"] := by
  refine ⟨by decide, by decide⟩

/-- C8 (amended): when the table name recorded in a previously
instantiated block is not present verbatim in the current schema, the
reconciliation step does *not* retry it normalized: the block's column
list is treated as empty even when the normalized name is present in the
schema (the normalized retry exists only for the template default table in
step 2b, views.py lines 263--268). -/
theorem c8_amended_verbatim_only (schema : List (String × List String))
    (t : String) (cs : List String)
    (hv : lookupA schema t = none)
    (_hn : lookupA schema (slugU t) = some cs) :
    colsForSaved schema (some t) = [] := by
  simp [colsForSaved, hv]

/-- C8 witness: the amended theorem applied at the counterexample input. -/
theorem c8_witness : colsForSaved [("my_table", ["a", "b"])] (some "My Table") = [] :=
  c8_amended_verbatim_only [("my_table", ["a", "b"])] "My Table" ["a", "b"]
    (by decide) (by decide)

/-- C9 counterexample: for a block with target `:s :p {foo} .` and source
`SELECT foo, bar FROM "t"` over schema `{t: [foo, bar]}`, the persisted
placeholder sequence is `[foo, bar]` — the schema-driven step 2b appended
`bar`, which is neither a `{...}` token of the target nor a filter-only
identifier, contradicting "and nothing else". -/
theorem c9_counterexample :
    fullBlockPlaceholders ":s :p {foo} .".data "SELECT foo, bar FROM \"t\"".data
        [("t", ["foo", "bar"])] = ["foo", "bar"]
    ∧ blockPlaceholders ":s :p {foo} .".data "SELECT foo, bar FROM \"t\"".data =
      ["foo"]
    ∧ fullBlockPlaceholders ":s :p {foo} .".data "SELECT foo, bar FROM \"t\"".data
        [("t", ["foo", "bar"])] ≠
      blockPlaceholders ":s :p {foo} .".data "SELECT foo, bar FROM \"t\"".data := by
  refine ⟨by decide, by decide, by decide⟩

/-- C9 (amended): a block's final placeholder sequence is duplicate-free
and order-stable, starts with the target's `{name}` tokens de-duplicated
in first-seen order, and consists exactly of those tokens, the filter-only
identifiers of the source, and additionally the columns of the block's
canonicalized default table that occur whole-word in the source SQL. -/
theorem c9_amended_extraction (tgt src : List Char)
    (schema : List (String × List String)) :
    (fullBlockPlaceholders tgt src schema).Nodup
    ∧ (∃ t, fullBlockPlaceholders tgt src schema =
        dedupKeepFirst (braceVars tgt) ++ t)
    ∧ ∀ x, x ∈ fullBlockPlaceholders tgt src schema ↔
        (x ∈ braceVars tgt ∨ x ∈ opFilterIds src ∨ x ∈ isnanArgs src ∨
          x ∈ extract_columns_from_sql src
            ((lookupA schema (canonTable schema (extractFromTable src))).getD [])) := by
  refine ⟨?_, ?_, ?_⟩
  · show (appendAbsent (blockPlaceholders tgt src) _).Nodup
    refine appendAbsent_nodup _ _ ?_
    show (appendAbsent (dedupKeepFirst (braceVars tgt)) _).Nodup
    refine appendAbsent_nodup _ _ ?_
    exact appendAbsent_nodup _ [] List.nodup_nil
  · obtain ⟨t1, ht1⟩ := appendAbsent_eq_append
      (dedupKeepFirst (opFilterIds src ++ isnanArgs src))
      (dedupKeepFirst (braceVars tgt))
    obtain ⟨t2, ht2⟩ := appendAbsent_eq_append
      (extract_columns_from_sql src
        ((lookupA schema (canonTable schema (extractFromTable src))).getD []))
      (blockPlaceholders tgt src)
    refine ⟨t1 ++ t2, ?_⟩
    show appendAbsent (blockPlaceholders tgt src) _ = _
    rw [ht2]
    show blockPlaceholders tgt src ++ t2 = _
    rw [show blockPlaceholders tgt src =
      dedupKeepFirst (braceVars tgt) ++ t1 from ht1]
    rw [List.append_assoc]
  · intro x
    unfold fullBlockPlaceholders blockPlaceholders
    simp only [mem_appendAbsent, dedupKeepFirst, List.mem_append,
      List.not_mem_nil, false_or]
    tauto

/-- C10: an entry of the posted connections map whose key does not convert
to a (Python-semantics) valid index into the block's placeholder list, or
whose value does not convert to a valid index into the chosen table's
column list, is neither rejected nor skipped: the raw key and value
strings are used as placeholder and column name. -/
theorem c10_fallback_raw (phs cols : List String) (key val : String)
    (h : Option.bind (pyInt key) (fun i => pyIdx phs i) = none ∨
      Option.bind (pyInt val) (fun i => pyIdx cols i) = none) :
    connEntry phs cols key val = (key, val) := by
  rcases hk : pyInt key with _ | pi
  · simp [connEntry, hk]
  · rcases hv : pyInt val with _ | ci
    · simp [connEntry, hk, hv]
    · rw [hk, hv] at h
      simp only [Option.some_bind] at h
      rcases h with h | h
      · simp [connEntry, hk, hv, h]
      · rcases hx : pyIdx phs pi with _ | vn
        · simp [connEntry, hk, hv, hx]
        · simp [connEntry, hk, hv, hx, h]

/-- C10 witness: a non-numeric key falls back to the raw strings. -/
theorem c10_witness : connEntry ["a"] ["c"] "x" "0" = ("x", "0") :=
  c10_fallback_raw ["a"] ["c"] "x" "0" (Or.inl (by decide))

end Tdn
